import Mathlib

/-!
Verification of the MCP/OpenAI client service (`openai.service.ts`) of the
ng-mcp-chatbot repository.  The service's pure logic is shallowly embedded:
JavaScript runtime values are modelled by the inductive `Json` (with an
`undefined` constructor for JavaScript's `undefined`), host JSON parsing
(`JSON.parse`) is a parameter `parse : String → Option Json`, and code that
can throw is modelled in `Except Unit`.
-/

/-- JavaScript runtime values as they occur in this service: the JSON value
constructors plus `undefined`. -/
inductive Json where
  | undefined : Json
  | null : Json
  | bool : Bool → Json
  | num : Int → Json
  | str : String → Json
  | arr : List Json → Json
  | obj : List (String × Json) → Json
deriving Repr

/-- JavaScript truthiness of a value (`if (x)`), as the service's guards use it. -/
def jsTruthy : Json → Bool
  | .undefined => false
  | .null => false
  | .bool b => b
  | .num n => !(n == 0)
  | .str s => !(s == "")
  | .arr _ => true
  | .obj _ => true

/-- JavaScript property access `x.f`: throws a TypeError on `null`/`undefined`,
yields the field (or `undefined`) on objects, the length on strings and
arrays, and `undefined` on other primitives. -/
def jsGet : Json → String → Except Unit Json
  | .null, _ => .error ()
  | .undefined, _ => .error ()
  | .str s, f => .ok (if f = "length" then .num (Int.ofNat s.length) else .undefined)
  | .arr xs, f => .ok (if f = "length" then .num (Int.ofNat xs.length) else .undefined)
  | .obj fs, f => .ok ((fs.lookup f).getD .undefined)
  | _, _ => .ok .undefined

/-- Total variant of `jsGet` for receivers known to be non-nullish. -/
def jsPropD (j : Json) (f : String) : Json :=
  match jsGet j f with
  | .ok v => v
  | .error _ => .undefined

mutual

/-- JavaScript string conversion as used by template literals
(`undefined` renders as "undefined", objects as "[object Object]"). -/
def jsStr : Json → String
  | .undefined => "undefined"
  | .null => "null"
  | .bool b => if b then "true" else "false"
  | .num n => toString n
  | .str s => s
  | .arr xs => jsStrList xs
  | .obj _ => "[object Object]"

/-- JavaScript `Array.prototype.toString`/`join(",")`: elements joined by
commas, with `null`/`undefined` elements rendered as the empty string. -/
def jsStrList : List Json → String
  | [] => ""
  | x :: xs =>
      (match x with
        | .undefined => ""
        | .null => ""
        | y => jsStr y)
      ++ (match xs with
        | [] => ""
        | _ => "," ++ jsStrList xs)

end

/-- Element conversion of `Array.prototype.join`: `null`/`undefined` become
the empty string, everything else its JavaScript string conversion. -/
def jsJoinElem : Json → String
  | .undefined => ""
  | .null => ""
  | j => jsStr j

/-- JavaScript comparison `x > 0` for the values that reach the service's
`length > 0` check (a number or `undefined`). -/
def jsGtZero : Json → Bool
  | .num n => decide (0 < n)
  | _ => false

/-- Message roles of the `OpenAIMessage` interface. -/
inductive Role where
  | system : Role
  | user : Role
  | assistant : Role
deriving DecidableEq, Repr

/-- The `OpenAIMessage` interface: a role and text content. -/
structure OpenAIMessage where
  role : Role
  content : String
deriving DecidableEq, Repr

/-- JavaScript `String.prototype.split` with the separator "\n", as
`response.split('\n')` uses it: every occurrence splits, empty pieces are
kept. -/
def splitNlAux : List Char → List Char → List String
  | [], acc => [String.mk acc.reverse]
  | c :: cs, acc =>
    if c = '\n' then String.mk acc.reverse :: splitNlAux cs []
    else splitNlAux cs (c :: acc)

/-- JavaScript `String.prototype.split('\n')` on a whole string. -/
def splitNl (s : String) : List String := splitNlAux s.data []

/-- JavaScript `String.prototype.startsWith`. -/
def strStartsWith (s pre : String) : Bool := pre.data.isPrefixOf s.data

/-- JavaScript `String.prototype.substring(n)` (the service only drops the
6 ASCII characters of "data: "). -/
def strDrop (s : String) (n : Nat) : String := String.mk (s.data.drop n)

/-- Outcomes of the SSE frame decoding inside `callMCPMethod`. -/
inductive MCPError where
  | parseError : MCPError
  | typeError : MCPError
  | remoteError : String → MCPError
  | invalidSSE : MCPError
deriving DecidableEq, Repr

/-- The response-decoding `map` of `callMCPMethod` (lines 382-395): split the
raw body on newlines, find the first line starting with "data: ", strip the
prefix, `JSON.parse` the remainder (the host parser is the `parse`
parameter), throw on a truthy `error` field, otherwise return the `result`
field.  A missing data line throws 'Invalid SSE response format'. -/
def callMCPMethodDecode (parse : String → Option Json) (body : String) :
    Except MCPError Json :=
  let lines := splitNl body
  match lines.find? (fun line => strStartsWith line "data: ") with
  | some dataLine =>
    let jsonData := strDrop dataLine 6
    match parse jsonData with
    | none => .error .parseError
    | some parsedData =>
      match jsGet parsedData "error" with
      | .error _ => .error .typeError
      | .ok errV =>
        if jsTruthy errV then
          match jsGet errV "message" with
          | .error _ => .error .typeError
          | .ok msgV => .error (.remoteError ("MCP Error: " ++ jsStr msgV))
        else
          match jsGet parsedData "result" with
          | .error _ => .error .typeError
          | .ok r => .ok r
  | none => .error .invalidSSE

/-- One choice of the `OpenAIResponse` interface. -/
structure ChoiceMessage where
  content : String
  role : String
deriving DecidableEq, Repr

/-- A `choices` entry of the `OpenAIResponse` interface. -/
structure Choice where
  message : ChoiceMessage
deriving DecidableEq, Repr

/-- The `OpenAIResponse` interface. -/
structure OpenAIResponse where
  choices : List Choice
deriving DecidableEq, Repr

/-- The completion request body built by `sendMessage` (lines 299-304). -/
structure CompletionBody where
  model : String
  messages : List OpenAIMessage
  max_tokens : Nat
  temperature : ℚ
deriving DecidableEq, Repr

/-- The request body `sendMessage` posts: `none` when the API key is empty
(the method fails before constructing any request), otherwise the fixed
body of lines 299-304. -/
def sendMessageBody (apiKey : String) (messages : List OpenAIMessage) :
    Option CompletionBody :=
  if apiKey = "" then none
  else some { model := "gpt-3.5-turbo", messages := messages,
              max_tokens := 1000, temperature := (7 : ℚ) / 10 }

/-- The result of `sendMessage` (lines 287-318), with the HTTP outcome as a
parameter: an empty API key fails immediately; a transport error is
rethrown; a response with a nonempty `choices` list yields the first
choice's message content; an empty list throws 'No response from OpenAI'. -/
def sendMessage (apiKey : String) (messages : List OpenAIMessage)
    (response : Except String OpenAIResponse) : Except String String :=
  if apiKey = "" then .error "OpenAI API key not set"
  else
    match response with
    | .error e => .error e
    | .ok r =>
      match r.choices with
      | c :: _ => .ok c.message.content
      | [] => .error "No response from OpenAI"

/-- The `try` block of `createContext`'s content branch (lines 500-513):
`JSON.parse` the (stringified) `text` value; an array is used directly, a
value with a truthy array `companies` field yields that field, anything
else is wrapped as a single-element array.  Any throw inside (parse
failure, or property access on a parsed `null`) is an error. -/
def parseTextBlock (parse : String → Option Json) (text : Json) :
    Except Unit (List Json) :=
  match parse (jsStr text) with
  | none => .error ()
  | some parsedData =>
    match parsedData with
    | .arr xs => .ok xs
    | _ =>
      match jsGet parsedData "companies" with
      | .error e => .error e
      | .ok comps =>
        if jsTruthy comps then
          match comps with
          | .arr ys => .ok ys
          | _ => .ok [parsedData]
        else .ok [parsedData]

/-- The content branch fallback of `createContext` (lines 514-518): a
first content element that is an array is used directly, otherwise it is
wrapped as a single-element array. -/
def contentFallback (contentData : Json) : List Json :=
  match contentData with
  | .arr xs => xs
  | _ => [contentData]

/-- The non-content branches of `createContext` (lines 519-526): an array
payload is used directly; a truthy payload with a truthy array `companies`
field yields that field; any other (non-null) object is wrapped; everything
else leaves the record list empty. -/
def normalizeRest (companies : Json) : Except Unit (List Json) :=
  match companies with
  | .arr xs => .ok xs
  | _ =>
    if jsTruthy companies then
      match jsGet companies "companies" with
      | .error e => .error e
      | .ok comps =>
        if jsTruthy comps then
          match comps with
          | .arr ys => .ok ys
          | _ =>
            match companies with
            | .obj _ => .ok [companies]
            | _ => .ok []
        else
          match companies with
          | .obj _ => .ok [companies]
          | _ => .ok []
    else .ok []

/-- The full normalization of `createContext` (lines 492-526): the early
return 'Error parsing company data.' is `Sum.inl`, a record list is
`Sum.inr`. -/
def normalizeCompanies (parse : String → Option Json) (companies : Json) :
    Except Unit (Sum String (List Json)) :=
  if jsTruthy companies then
    match jsGet companies "content" with
    | .error e => .error e
    | .ok content =>
      match content with
      | .arr items =>
        let contentData := items.headD .undefined
        if jsTruthy contentData then
          match jsGet contentData "text" with
          | .error e => .error e
          | .ok text =>
            if jsTruthy text then
              match parseTextBlock parse text with
              | .error _ => .ok (Sum.inl "Error parsing company data.")
              | .ok xs => .ok (Sum.inr xs)
            else .ok (Sum.inr (contentFallback contentData))
        else .ok (Sum.inr (contentFallback contentData))
      | _ =>
        match normalizeRest companies with
        | .error e => .error e
        | .ok xs => .ok (Sum.inr xs)
  else
    match normalizeRest companies with
    | .error e => .error e
    | .ok xs => .ok (Sum.inr xs)

/-- The chatbot line value of one record (line 534):
`company.chats?.map((chat) => chat.chatbot).join(', ') || 'None'`. -/
def renderChats (chatsV : Json) : Except Unit String :=
  match chatsV with
  | .undefined => .ok "None"
  | .null => .ok "None"
  | .arr xs =>
    match xs.mapM (fun chat => jsGet chat "chatbot") with
    | .error e => .error e
    | .ok vals =>
      let s := String.intercalate ", " (vals.map jsJoinElem)
      .ok (if s = "" then "None" else s)
  | _ => .error ()

/-- The LLM line value of one record (lines 535-537):
`company.llms?.map((llm) => llm.llm + ' (' + llm.specialization + ')').join(', ') || 'None'`. -/
def renderLLMs (llmsV : Json) : Except Unit String :=
  match llmsV with
  | .undefined => .ok "None"
  | .null => .ok "None"
  | .arr xs =>
    match xs.mapM (fun llm =>
      (match jsGet llm "llm" with
      | .error e => .error e
      | .ok l =>
        match jsGet llm "specialization" with
        | .error e => .error e
        | .ok sp => .ok (jsStr l ++ " (" ++ jsStr sp ++ ")") :
          Except Unit String)) with
    | .error e => .error e
    | .ok vals =>
      let s := String.intercalate ", " vals
      .ok (if s = "" then "None" else s)
  | _ => .error ()

/-- The per-record rendering lambda of `createContext` (lines 532-543). -/
def renderCompany (company : Json) : Except Unit String :=
  match jsGet company "chats" with
  | .error e => .error e
  | .ok chatsV =>
    match renderChats chatsV with
    | .error e => .error e
    | .ok chats =>
      match jsGet company "llms" with
      | .error e => .error e
      | .ok llmsV =>
        match renderLLMs llmsV with
        | .error e => .error e
        | .ok llms =>
          match jsGet company "company" with
          | .error e => .error e
          | .ok name =>
            match jsGet company "description" with
            | .error e => .error e
            | .ok desc =>
              .ok ("Company: " ++ jsStr name ++ "\nDescription: " ++ jsStr desc
                ++ "\nChatbots: " ++ chats ++ "\nLLM Models: " ++ llms)

/-- Rendering of a normalized record list (lines 528-544): empty means
'No company data available.', otherwise per-record blocks joined by a
blank line. -/
def renderRecords (xs : List Json) : Except Unit String :=
  if xs.length = 0 then .ok "No company data available."
  else
    match xs.mapM renderCompany with
    | .error e => .error e
    | .ok blocks => .ok (String.intercalate "\n\n" blocks)

/-- The private `createContext` method (lines 491-545). -/
def createContext (parse : String → Option Json) (companies : Json) :
    Except Unit String :=
  match normalizeCompanies parse companies with
  | .error e => .error e
  | .ok (Sum.inl msg) => .ok msg
  | .ok (Sum.inr companiesArray) => renderRecords companiesArray

/-- Drop every `system`-role message:
`messages.filter((m) => m.role !== 'system')` (lines 465, 480). -/
def dropSystem (messages : List OpenAIMessage) : List OpenAIMessage :=
  messages.filter (fun m => m.role != Role.system)

/-- The rich-tier system prompt of `sendMessageWithMCPContext`
(lines 447-459), parameterized by the rendered context block. -/
def richPrompt (context : String) : String :=
  "You are an AI assistant that helps users find information about AI companies and their products.\n\nYou have access to the following data about AI companies:\n"
  ++ context
  ++ "\n\nWhen users ask questions, use this data to provide accurate and helpful responses. If the question is about a specific company, you can also suggest using the MCP tools to get more detailed information about their chatbots or LLM models.\n\nAvailable MCP tools:\n- getCompanies: Get all companies with their chats and LLMs\n- getChats(companyName): Get chatbots for a specific company\n- getLLMs(companyName): Get LLM models for a specific company\n\nBe helpful, accurate, and suggest relevant companies or products based on the user's question."

/-- The degraded-tier system prompt of `sendMessageWithMCPContext`
(line 478), parameterized by the joined tool description lines. -/
def toolsPrompt (toolsDescription : String) : String :=
  "You are an AI assistant with access to the following MCP (Model Context Protocol) tools:\n\n"
  ++ toolsDescription
  ++ "\n\nWhen a user asks about topics that could be answered using these tools, explain what information you could provide if you had access to call these tools. For example, if asked about \"AI companies\", mention that you have access to tools that could provide that information."

/-- The guard `mcpTools && mcpTools.tools && mcpTools.tools.length > 0`
(line 471), with JavaScript short-circuit and truthiness semantics. -/
def hasTools (mcpTools : Json) : Except Unit Bool :=
  if jsTruthy mcpTools then
    match jsGet mcpTools "tools" with
    | .error e => .error e
    | .ok tools =>
      if jsTruthy tools then
        match jsGet tools "length" with
        | .error e => .error e
        | .ok len => .ok (jsGtZero len)
      else .ok false
  else .ok false

/-- One line of the degraded-tier tool description (line 473):
`- ` + tool.name + `: ` + (tool.description || 'No description available'). -/
def toolLine (tool : Json) : Except Unit String :=
  match jsGet tool "name" with
  | .error e => .error e
  | .ok name =>
    match jsGet tool "description" with
    | .error e => .error e
    | .ok desc =>
      .ok ("- " ++ jsStr name ++ ": "
        ++ jsStr (if jsTruthy desc then desc else .str "No description available"))

/-- The degraded-tier description block (lines 472-474):
`mcpTools.tools.map(...).join('\n')`; calling `.map` on a non-array throws. -/
def toolsDescriptionOf (tools : Json) : Except Unit String :=
  match tools with
  | .arr xs =>
    match xs.mapM toolLine with
    | .error e => .error e
    | .ok lines => .ok (String.intercalate "\n" lines)
  | _ => .error ()

/-- The `catchError` fallback of `sendMessageWithMCPContext`
(lines 468-485): with a truthy nonempty tool list, prepend the degraded
system message to the conversation stripped of `system` messages;
otherwise pass the conversation through unchanged. -/
def mcpFallback (messages : List OpenAIMessage) (mcpTools : Json) :
    Except Unit (List OpenAIMessage) :=
  match hasTools mcpTools with
  | .error e => .error e
  | .ok true =>
    match jsGet mcpTools "tools" with
    | .error e => .error e
    | .ok tools =>
      match toolsDescriptionOf tools with
      | .error e => .error e
      | .ok desc =>
        .ok ({ role := Role.system, content := toolsPrompt desc } :: dropSystem messages)
  | .ok false => .ok messages

/-- The rich tier of `sendMessageWithMCPContext` (lines 444-467): on a
successful `getCompanies` payload, render the context and prepend the rich
system message to the conversation stripped of `system` messages.  A failed
tool call (`none`) or a throw inside `createContext` is an error, handled
by the fallback. -/
def enrichRich (parse : String → Option Json) (messages : List OpenAIMessage)
    (companiesResult : Option Json) : Except Unit (List OpenAIMessage) :=
  match companiesResult with
  | none => .error ()
  | some companies =>
    match createContext parse companies with
    | .error e => .error e
    | .ok context =>
      .ok ({ role := Role.system, content := richPrompt context } :: dropSystem messages)

/-- The conversation `sendMessageWithMCPContext` (lines 442-488) builds and
hands to `sendMessage`: the rich tier if the `getCompanies` call succeeded
and its payload rendered without a throw, otherwise the `catchError`
fallback (degraded or minimal tier). -/
def sendMessageWithMCPContext (parse : String → Option Json)
    (messages : List OpenAIMessage) (mcpTools : Json)
    (companiesResult : Option Json) : Except Unit (List OpenAIMessage) :=
  match enrichRich parse messages companiesResult with
  | .ok ms => .ok ms
  | .error _ => mcpFallback messages mcpTools

/-- The `text` value of the first `content` element, under the literal
wording of the claimed shape rule: the payload has a `content` list whose
first element carries a `text` field. -/
def contentTextHead (payload : Json) : Option Json :=
  match payload with
  | .obj fs =>
    match fs.lookup "content" with
    | some (.arr (first :: _)) =>
      match first with
      | .obj gs => gs.lookup "text"
      | _ => none
    | _ => none
  | _ => none

/-- The claimed ordered shape rule for payload normalization, as the claim
words it: `content[0].text` parsed as JSON (a list used directly, a nested
`companies` list taken, or wrapped; parse failure is the parse-error
literal); a list payload
used directly; a top-level `companies` list; any other non-null object
wrapped; anything else an empty record list. -/
def claimRecordsC4 (parse : String → Option Json) (payload : Json) :
    Sum String (List Json) :=
  match contentTextHead payload with
  | some text =>
    match parse (jsStr text) with
    | none => Sum.inl "Error parsing company data."
    | some v =>
      match v with
      | .arr xs => Sum.inr xs
      | .obj fs =>
        match fs.lookup "companies" with
        | some (.arr ys) => Sum.inr ys
        | _ => Sum.inr [v]
      | _ => Sum.inr [v]
  | none =>
    match payload with
    | .arr xs => Sum.inr xs
    | .obj fs =>
      match fs.lookup "companies" with
      | some (.arr ys) => Sum.inr ys
      | _ => Sum.inr [payload]
    | _ => Sum.inr []

/-- Normalization-plus-rendering under the claim's literal ordered shape
rule (rendering as in the source). -/
def createContextClaimC4 (parse : String → Option Json) (payload : Json) :
    Except Unit String :=
  match claimRecordsC4 parse payload with
  | Sum.inl msg => .ok msg
  | Sum.inr xs => renderRecords xs

/-- The `content` element list of a payload whose (truthy) `content` field
is a list, for the amended shape rule. -/
def contentListOf (payload : Json) : Option (List Json) :=
  match payload with
  | .obj fs =>
    match fs.lookup "content" with
    | some (.arr items) => some items
    | _ => none
  | _ => none

/-- The truthy `text` field of a truthy first content element, for the
amended shape rule. -/
def truthyTextOf (first : Json) : Option Json :=
  if jsTruthy first then
    let t := jsPropD first "text"
    if jsTruthy t then some t else none
  else none

/-- The `companies` field of a parsed value when that field is a list, for
the amended shape rule. -/
def companiesArrOf (v : Json) : Option (List Json) :=
  match jsPropD v "companies" with
  | .arr ys => some ys
  | _ => none

/-- The text-parse step of the amended ordered shape rule: the parsed value
is used directly if it is a list, taken from its `companies` field if that
field is a list, otherwise wrapped as a single-element list; a failed parse
— or a parsed nullish value, whose `companies` access throws inside the
guarded block — yields the parse-error literal. -/
def claimTextRecords (parse : String → Option Json) (text : Json) :
    Sum String (List Json) :=
  match parse (jsStr text) with
  | none => Sum.inl "Error parsing company data."
  | some .null => Sum.inl "Error parsing company data."
  | some .undefined => Sum.inl "Error parsing company data."
  | some (.arr xs) => Sum.inr xs
  | some v =>
    match companiesArrOf v with
    | some ys => Sum.inr ys
    | none => Sum.inr [v]

/-- The non-content buckets of the amended ordered shape rule: a list
payload used directly; a truthy payload's list-valued `companies` field;
any other (non-null) object wrapped; anything else an empty record list. -/
def claimRestRecords (payload : Json) : List Json :=
  match payload with
  | .arr xs => xs
  | _ =>
    if jsTruthy payload then
      match companiesArrOf payload with
      | some ys => ys
      | none =>
        match payload with
        | .obj _ => [payload]
        | _ => []
    else []

/-- The amended ordered shape rule: like the claimed rule, but (1) the
`content` branch applies whenever the `content` field is a list, with the
text-parse step requiring a truthy first element carrying a truthy `text`
field, a non-text first element used directly when it is a list and
wrapped as a single-element list otherwise; (2) a parsed nullish value is
treated like a text-parse failure (its `companies` access throws inside
the guarded block). -/
def claimRecordsAmendedC4 (parse : String → Option Json) (payload : Json) :
    Sum String (List Json) :=
  match contentListOf payload with
  | some items =>
    let first := items.headD .undefined
    match truthyTextOf first with
    | some text => claimTextRecords parse text
    | none =>
      match first with
      | .arr xs => Sum.inr xs
      | _ => Sum.inr [first]
  | none => Sum.inr (claimRestRecords payload)

/-- Normalization-plus-rendering under the amended ordered shape rule. -/
def createContextAmendedC4 (parse : String → Option Json) (payload : Json) :
    Except Unit String :=
  match claimRecordsAmendedC4 parse payload with
  | Sum.inl msg => .ok msg
  | Sum.inr xs => renderRecords xs

/-- Number of `system`-role messages in a conversation. -/
def countSystem (messages : List OpenAIMessage) : Nat :=
  (messages.filter (fun m => m.role == Role.system)).length

/-- A well-formed ToolDescriptor as the spec's data model describes it:
a name and an optional human-readable description. -/
structure MCPTool where
  name : String
  description : Option String
deriving DecidableEq, Repr

/-- The JavaScript object encoding one ToolDescriptor. -/
def toolJson (t : MCPTool) : Json :=
  .obj ([("name", .str t.name)]
    ++ (match t.description with
        | some d => [("description", .str d)]
        | none => []))

/-- The JavaScript value a caller passes as `mcpTools` for a list of
well-formed ToolDescriptors: an object whose `tools` field is the array of
their encodings. -/
def mcpToolsJson (ts : List MCPTool) : Json :=
  .obj [("tools", .arr (ts.map toolJson))]

/-- The description line the degraded tier is claimed to produce for one
ToolDescriptor. -/
def toolLineStr (t : MCPTool) : String :=
  "- " ++ t.name ++ ": " ++ t.description.getD "No description available"

/-- The inner JSON text of the C6 rich-tier payload. -/
def c6Text : String :=
  "[\x7b\"company\":\"Acme\",\"description\":\"d\",\"chats\":[\x7b\"chatbot\":\"c1\"\x7d],\"llms\":[\x7b\"llm\":\"m1\",\"specialization\":\"s1\"\x7d]\x7d]"

/-- The single record `JSON.parse` yields for `c6Text`. -/
def c6Record : Json :=
  .obj [("company", .str "Acme"), ("description", .str "d"),
        ("chats", .arr [.obj [("chatbot", .str "c1")]]),
        ("llms", .arr [.obj [("llm", .str "m1"), ("specialization", .str "s1")]])]

/-- The value `JSON.parse` yields for `c6Text`: a one-record array. -/
def c6Parsed : Json := .arr [c6Record]

/-- The C6 rich-tier payload `{content:[{text: c6Text}]}`. -/
def c6Payload : Json := .obj [("content", .arr [.obj [("text", .str c6Text)]])]

/-- The output shape claimed for the composed conversation: the input's
non-system messages with exactly zero or one system message prepended at
the front. -/
def prependedForm (input out : List OpenAIMessage) : Prop :=
  out = dropSystem input
  ∨ ∃ s : OpenAIMessage, s.role = Role.system ∧ out = s :: dropSystem input

theorem jsTruthy_ne_nullish {j : Json} (h : jsTruthy j = true) :
    j ≠ Json.null ∧ j ≠ Json.undefined := by
  cases j <;> simp_all [jsTruthy]

theorem jsGet_eq_ok (j : Json) (f : String) (h1 : j ≠ Json.null)
    (h2 : j ≠ Json.undefined) : jsGet j f = .ok (jsPropD j f) := by
  cases j <;> first | rfl | exact absurd rfl h1 | exact absurd rfl h2

theorem countSystem_dropSystem (messages : List OpenAIMessage) :
    countSystem (dropSystem messages) = 0 := by
  unfold countSystem dropSystem
  induction messages with
  | nil => rfl
  | cons m ms ih =>
    by_cases hm : m.role = Role.system <;>
      simp [List.filter_cons, hm, ih]

theorem dropSystem_idem (messages : List OpenAIMessage) :
    dropSystem (dropSystem messages) = dropSystem messages := by
  unfold dropSystem
  induction messages with
  | nil => rfl
  | cons m ms ih =>
    by_cases hm : m.role = Role.system <;>
      simp [List.filter_cons, hm, ih]

theorem enrichRich_ok_shape (parse : String → Option Json)
    (messages : List OpenAIMessage) (companiesResult : Option Json)
    (out : List OpenAIMessage)
    (h : enrichRich parse messages companiesResult = .ok out) :
    ∃ s : OpenAIMessage, s.role = Role.system ∧ out = s :: dropSystem messages := by
  unfold enrichRich at h
  cases companiesResult with
  | none => simp at h
  | some companies =>
    dsimp only at h
    cases hc : createContext parse companies with
    | error e => rw [hc] at h; simp at h
    | ok ctx =>
      rw [hc] at h
      simp only [Except.ok.injEq] at h
      exact ⟨{ role := Role.system, content := richPrompt ctx }, rfl, h.symm⟩

theorem mcpFallback_ok_shape (messages : List OpenAIMessage) (mcpTools : Json)
    (out : List OpenAIMessage) (h : mcpFallback messages mcpTools = .ok out) :
    out = messages
    ∨ ∃ s : OpenAIMessage, s.role = Role.system ∧ out = s :: dropSystem messages := by
  unfold mcpFallback at h
  cases ht : hasTools mcpTools with
  | error e => rw [ht] at h; simp at h
  | ok b =>
    rw [ht] at h
    cases b with
    | false => simp only [Except.ok.injEq] at h; exact Or.inl h.symm
    | true =>
      dsimp only at h
      cases hg : jsGet mcpTools "tools" with
      | error e => rw [hg] at h; simp at h
      | ok tools =>
        rw [hg] at h
        dsimp only at h
        cases hd : toolsDescriptionOf tools with
        | error e => rw [hd] at h; simp at h
        | ok desc =>
          rw [hd] at h
          simp only [Except.ok.injEq] at h
          exact Or.inr ⟨{ role := Role.system, content := toolsPrompt desc }, rfl, h.symm⟩

theorem sendCtx_ok_shape (parse : String → Option Json)
    (messages : List OpenAIMessage) (mcpTools : Json)
    (companiesResult : Option Json) (out : List OpenAIMessage)
    (h : sendMessageWithMCPContext parse messages mcpTools companiesResult = .ok out) :
    out = messages
    ∨ ∃ s : OpenAIMessage, s.role = Role.system ∧ out = s :: dropSystem messages := by
  unfold sendMessageWithMCPContext at h
  cases he : enrichRich parse messages companiesResult with
  | ok ms =>
    rw [he] at h
    simp only [Except.ok.injEq] at h
    rcases enrichRich_ok_shape parse messages companiesResult ms he with ⟨s, hs, hms⟩
    exact Or.inr ⟨s, hs, h ▸ hms⟩
  | error e =>
    rw [he] at h
    exact mcpFallback_ok_shape messages mcpTools out h

/-- C1 counterexample: with a failed `getCompanies` call and no supplied
tool list (the minimal tier), the conversation handed to the completion
call is the input unchanged, so an input carrying two system messages
yields an output with two system messages — pre-existing system messages
are neither dropped nor limited to one, refuting the claim. -/
theorem c1_counterexample :
    sendMessageWithMCPContext (fun _ => none)
      [{ role := Role.system, content := "a" }, { role := Role.system, content := "b" },
       { role := Role.user, content := "q" }] Json.undefined none
      = .ok [{ role := Role.system, content := "a" }, { role := Role.system, content := "b" },
             { role := Role.user, content := "q" }]
    ∧ ¬ countSystem [{ role := Role.system, content := "a" },
         { role := Role.system, content := "b" },
         { role := Role.user, content := "q" }] ≤ 1 :=
  ⟨rfl, by decide⟩

/-- C1 (amended): the conversation handed to the completion call is either
the input unchanged (minimal tier: a failed tool call and no nonempty tool
list — pre-existing system messages are retained) or one fresh system
message prepended to the input stripped of its system messages (rich and
degraded tiers).  Hence the output has at most max(1, n) system messages
where n is the input's count; in particular at most one whenever the input
has at most one. -/
theorem c1_amended (parse : String → Option Json)
    (messages : List OpenAIMessage) (mcpTools : Json)
    (companiesResult : Option Json) (out : List OpenAIMessage)
    (h : sendMessageWithMCPContext parse messages mcpTools companiesResult = .ok out) :
    countSystem out ≤ max 1 (countSystem messages)
    ∧ (countSystem messages ≤ 1 → countSystem out ≤ 1) := by
  rcases sendCtx_ok_shape parse messages mcpTools companiesResult out h with h1 | ⟨s, hs, h2⟩
  · subst h1
    exact ⟨le_max_right _ _, fun hle => hle⟩
  · subst h2
    have hone : countSystem (s :: dropSystem messages) = 1 := by
      have hz := countSystem_dropSystem messages
      unfold countSystem at hz ⊢
      simp [List.filter_cons, hs, hz]
    rw [hone]
    exact ⟨le_max_left _ _, fun _ => le_refl 1⟩

/-- Witness for C1 (amended) at a concrete minimal-tier input. -/
theorem c1_witness :
    countSystem [{ role := Role.user, content := "w" }]
        ≤ max 1 (countSystem [{ role := Role.user, content := "w" }])
    ∧ (countSystem [{ role := Role.user, content := "w" }] ≤ 1 →
        countSystem [{ role := Role.user, content := "w" }] ≤ 1) :=
  c1_amended (fun _ => none) [{ role := Role.user, content := "w" }]
    Json.undefined none [{ role := Role.user, content := "w" }] rfl

/-- C7 counterexample: in the minimal tier the conversation passes through
unchanged, so an input whose system message sits between a user and an
assistant message is handed on with that system message still interleaved —
not of the claimed zero-or-one-prepended form. -/
theorem c7_counterexample :
    sendMessageWithMCPContext (fun _ => none)
      [{ role := Role.user, content := "q" }, { role := Role.system, content := "s" },
       { role := Role.assistant, content := "a" }] Json.undefined none
      = .ok [{ role := Role.user, content := "q" }, { role := Role.system, content := "s" },
             { role := Role.assistant, content := "a" }]
    ∧ ¬ prependedForm
        [{ role := Role.user, content := "q" }, { role := Role.system, content := "s" },
         { role := Role.assistant, content := "a" }]
        [{ role := Role.user, content := "q" }, { role := Role.system, content := "s" },
         { role := Role.assistant, content := "a" }] := by
  refine ⟨rfl, ?_⟩
  intro hform
  rcases hform with h1 | ⟨s, hs, h2⟩
  · exact absurd h1 (by decide)
  · rw [show dropSystem
        [{ role := Role.user, content := "q" }, { role := Role.system, content := "s" },
         { role := Role.assistant, content := "a" }]
        = [{ role := Role.user, content := "q" },
           { role := Role.assistant, content := "a" }] from rfl] at h2
    have hhead := List.head_eq_of_cons_eq h2
    have htail := List.tail_eq_of_cons_eq h2
    simp at htail

/-- C7 (amended): the user/assistant messages always survive in their
original relative order (the non-system subsequence of the output equals
that of the input), and the output is either the input unchanged (minimal
tier, which retains any interleaved system messages) or one system message
prepended to the input's non-system messages (rich and degraded tiers). -/
theorem c7_amended (parse : String → Option Json)
    (messages : List OpenAIMessage) (mcpTools : Json)
    (companiesResult : Option Json) (out : List OpenAIMessage)
    (h : sendMessageWithMCPContext parse messages mcpTools companiesResult = .ok out) :
    dropSystem out = dropSystem messages
    ∧ (out = messages
       ∨ ∃ s : OpenAIMessage, s.role = Role.system ∧ out = s :: dropSystem messages) := by
  rcases sendCtx_ok_shape parse messages mcpTools companiesResult out h with h1 | ⟨s, hs, h2⟩
  · subst h1; exact ⟨rfl, Or.inl rfl⟩
  · subst h2
    refine ⟨?_, Or.inr ⟨s, hs, rfl⟩⟩
    unfold dropSystem
    rw [List.filter_cons]
    simp only [hs]
    have := dropSystem_idem messages
    unfold dropSystem at this
    simp [this]

/-- Witness for C7 (amended) at a concrete minimal-tier input. -/
theorem c7_witness :
    dropSystem [{ role := Role.assistant, content := "x" }]
        = dropSystem [{ role := Role.assistant, content := "x" }]
    ∧ ([{ role := Role.assistant, content := "x" }]
         = [({ role := Role.assistant, content := "x" } : OpenAIMessage)]
       ∨ ∃ s : OpenAIMessage, s.role = Role.system
           ∧ [{ role := Role.assistant, content := "x" }]
             = s :: dropSystem [{ role := Role.assistant, content := "x" }]) :=
  c7_amended (fun _ => none) [{ role := Role.assistant, content := "x" }]
    Json.undefined none [{ role := Role.assistant, content := "x" }] rfl

/-- C5: with an empty configured API key, `sendMessage` fails with
'OpenAI API key not set' and its result does not depend on any network
outcome (no call is attempted); with a key set, a response with a nonempty
`choices` list yields the first choice's message content, and an empty
`choices` list fails with 'No response from OpenAI'. -/
theorem c5_sendMessage (apiKey : String) (messages : List OpenAIMessage)
    (response resp2 : Except String OpenAIResponse) :
    (apiKey = "" → sendMessage apiKey messages response = .error "OpenAI API key not set")
    ∧ (apiKey = "" →
        sendMessage apiKey messages response = sendMessage apiKey messages resp2)
    ∧ (apiKey ≠ "" → ∀ (c : Choice) (rest : List Choice),
        response = .ok ⟨c :: rest⟩ →
        sendMessage apiKey messages response = .ok c.message.content)
    ∧ (apiKey ≠ "" → response = .ok ⟨[]⟩ →
        sendMessage apiKey messages response = .error "No response from OpenAI") := by
  refine ⟨?_, ?_, ?_, ?_⟩
  · intro hk; unfold sendMessage; simp [hk]
  · intro hk; unfold sendMessage; simp [hk]
  · intro hk c rest hr; subst hr; unfold sendMessage; simp [hk]
  · intro hk hr; subst hr; unfold sendMessage; simp [hk]

/-- Witness for C5 at concrete inputs: empty key fails without a network
outcome mattering; a set key with one choice returns its content. -/
theorem c5_witness :
    sendMessage "" [] (.ok ⟨[]⟩) = .error "OpenAI API key not set"
    ∧ sendMessage "sk" [] (.ok ⟨[{ message := { content := "hi", role := "assistant" } }]⟩)
        = .ok "hi" :=
  ⟨(c5_sendMessage "" [] (.ok ⟨[]⟩) (.ok ⟨[]⟩)).1 rfl,
   (c5_sendMessage "sk" [] (.ok ⟨[{ message := { content := "hi", role := "assistant" } }]⟩)
      (.ok ⟨[]⟩)).2.2.1 (by decide)
      { message := { content := "hi", role := "assistant" } } [] rfl⟩

/-- C8: whenever the API key is nonempty, the completion request body is
exactly the fixed model identifier, the conversation's messages unchanged
and in order, `max_tokens` 1000 and `temperature` 0.7. -/
theorem c8_body (apiKey : String) (messages : List OpenAIMessage)
    (h : apiKey ≠ "") :
    sendMessageBody apiKey messages
      = some { model := "gpt-3.5-turbo", messages := messages,
               max_tokens := 1000, temperature := (7 : ℚ) / 10 } := by
  unfold sendMessageBody
  simp [h]

/-- Witness for C8 at a concrete key and conversation. -/
theorem c8_witness :
    sendMessageBody "sk" [{ role := Role.user, content := "hello" }]
      = some { model := "gpt-3.5-turbo",
               messages := [{ role := Role.user, content := "hello" }],
               max_tokens := 1000, temperature := (7 : ℚ) / 10 } :=
  c8_body "sk" [{ role := Role.user, content := "hello" }] (by decide)

/-- C2 counterexample: the first data line parses as a JSON value that does
have an `error` field (value `null`), yet the decoder succeeds with the
`result` field instead of failing — the error check uses JavaScript
truthiness, not field presence, refuting the claim as stated. -/
theorem c2_counterexample :
    callMCPMethodDecode
      (fun s => if s = "\x7b\"error\":null,\"result\":5\x7d"
        then some (.obj [("error", Json.null), ("result", Json.num 5)]) else none)
      "data: \x7b\"error\":null,\"result\":5\x7d"
      = .ok (Json.num 5)
    ∧ [("error", Json.null), ("result", Json.num 5)].lookup "error" = some Json.null :=
  ⟨rfl, rfl⟩

/-- C2 (amended): if no line begins with "data: ", the decoder fails with
'Invalid SSE response format'; if the first such line's remainder parses as
a non-nullish JSON value whose `error` field is absent or falsy, the
decoder returns that value's `result` field (undefined when absent); if the
parsed value's `error` field is truthy, it fails with 'MCP Error: '
followed by the error's `message` field rendered as a string. -/
theorem c2_amended (parse : String → Option Json) (body : String) :
    ((splitNl body).find? (fun line => strStartsWith line "data: ") = none →
      callMCPMethodDecode parse body = .error .invalidSSE)
    ∧ (∀ (l : String) (j : Json),
        (splitNl body).find? (fun line => strStartsWith line "data: ") = some l →
        parse (strDrop l 6) = some j → j ≠ Json.null → j ≠ Json.undefined →
        jsTruthy (jsPropD j "error") = false →
        callMCPMethodDecode parse body = .ok (jsPropD j "result"))
    ∧ (∀ (l : String) (j : Json),
        (splitNl body).find? (fun line => strStartsWith line "data: ") = some l →
        parse (strDrop l 6) = some j → j ≠ Json.null → j ≠ Json.undefined →
        jsTruthy (jsPropD j "error") = true →
        callMCPMethodDecode parse body
          = .error (.remoteError ("MCP Error: "
              ++ jsStr (jsPropD (jsPropD j "error") "message")))) := by
  refine ⟨?_, ?_, ?_⟩
  · intro hnone
    unfold callMCPMethodDecode
    dsimp only
    rw [hnone]
  · intro l j hl hp hn hu hfalse
    unfold callMCPMethodDecode
    dsimp only
    rw [hl]
    dsimp only
    rw [hp]
    dsimp only
    rw [jsGet_eq_ok j "error" hn hu]
    simp [hfalse, jsGet_eq_ok j "result" hn hu]
  · intro l j hl hp hn hu htrue
    unfold callMCPMethodDecode
    dsimp only
    rw [hl]
    dsimp only
    rw [hp]
    dsimp only
    rw [jsGet_eq_ok j "error" hn hu]
    have hne := jsTruthy_ne_nullish htrue
    simp [htrue, jsGet_eq_ok (jsPropD j "error") "message" hne.1 hne.2]

/-- Witness for C2 (amended): all three branches discharged at concrete
bodies. -/
theorem c2_witness :
    callMCPMethodDecode (fun _ => none) "event: message" = .error .invalidSSE
    ∧ callMCPMethodDecode
        (fun s => if s = "\x7b\"result\":7\x7d" then some (.obj [("result", Json.num 7)]) else none)
        "data: \x7b\"result\":7\x7d" = .ok (Json.num 7)
    ∧ callMCPMethodDecode
        (fun s => if s = "\x7b\"error\":\x7b\"message\":\"boom\"\x7d\x7d"
          then some (.obj [("error", .obj [("message", Json.str "boom")])]) else none)
        "data: \x7b\"error\":\x7b\"message\":\"boom\"\x7d\x7d"
        = .error (.remoteError "MCP Error: boom") := by
  refine ⟨?_, ?_, ?_⟩
  · exact (c2_amended (fun _ => none) "event: message").1 rfl
  · exact (c2_amended _ "data: \x7b\"result\":7\x7d").2.1
      "data: \x7b\"result\":7\x7d" (.obj [("result", Json.num 7)]) rfl rfl
      (by intro h; cases h) (by intro h; cases h) rfl
  · exact (c2_amended _ "data: \x7b\"error\":\x7b\"message\":\"boom\"\x7d\x7d").2.2
      "data: \x7b\"error\":\x7b\"message\":\"boom\"\x7d\x7d"
      (.obj [("error", .obj [("message", Json.str "boom")])]) rfl rfl
      (by intro h; cases h) (by intro h; cases h) rfl

/-- C10: when the first data line parses as a JSON object with neither an
`error` nor a `result` field, the decoder succeeds, returning the absent
`result` as the undefined payload. -/
theorem c10_decode (parse : String → Option Json) (body : String) (l : String)
    (fs : List (String × Json))
    (hl : (splitNl body).find? (fun line => strStartsWith line "data: ") = some l)
    (hp : parse (strDrop l 6) = some (.obj fs))
    (he : fs.lookup "error" = none) (hr : fs.lookup "result" = none) :
    callMCPMethodDecode parse body = .ok Json.undefined := by
  unfold callMCPMethodDecode
  dsimp only
  rw [hl]
  dsimp only
  rw [hp]
  dsimp only [jsGet]
  rw [he, hr]
  rfl

/-- Witness for C10 at a concrete body. -/
theorem c10_witness :
    callMCPMethodDecode
      (fun s => if s = "\x7b\"jsonrpc\":\"2.0\"\x7d"
        then some (.obj [("jsonrpc", Json.str "2.0")]) else none)
      "data: \x7b\"jsonrpc\":\"2.0\"\x7d" = .ok Json.undefined :=
  c10_decode
    (fun s => if s = "\x7b\"jsonrpc\":\"2.0\"\x7d"
      then some (.obj [("jsonrpc", Json.str "2.0")]) else none)
    "data: \x7b\"jsonrpc\":\"2.0\"\x7d" "data: \x7b\"jsonrpc\":\"2.0\"\x7d"
    [("jsonrpc", Json.str "2.0")] rfl rfl rfl rfl

theorem toolLine_toolJson (t : MCPTool) (hd : t.description ≠ some "") :
    toolLine (toolJson t) = .ok (toolLineStr t) := by
  cases hdesc : t.description with
  | none =>
    have hj : toolJson t = Json.obj [("name", Json.str t.name)] := by
      simp [toolJson, hdesc]
    rw [toolLine, hj]
    rw [show jsGet (Json.obj [("name", Json.str t.name)]) "name"
        = Except.ok (Json.str t.name) from rfl]
    rw [show jsGet (Json.obj [("name", Json.str t.name)]) "description"
        = Except.ok Json.undefined from rfl]
    dsimp only
    rw [toolLineStr, hdesc]
    rfl
  | some d =>
    have hdne : d ≠ "" := fun h => hd (by rw [hdesc, h])
    have hj : toolJson t
        = Json.obj [("name", Json.str t.name), ("description", Json.str d)] := by
      simp [toolJson, hdesc]
    rw [toolLine, hj]
    rw [show jsGet (Json.obj [("name", Json.str t.name), ("description", Json.str d)]) "name"
        = Except.ok (Json.str t.name) from rfl]
    rw [show jsGet (Json.obj [("name", Json.str t.name), ("description", Json.str d)]) "description"
        = Except.ok (Json.str d) from rfl]
    dsimp only
    rw [toolLineStr, hdesc]
    have hb : (d == "") = false := by
      simp [hdne]
    rw [show jsTruthy (Json.str d) = !(d == "") from rfl, hb]
    rfl

theorem toolLines_mapM (ts : List MCPTool)
    (hd : ∀ t ∈ ts, t.description ≠ some "") :
    (ts.map toolJson).mapM toolLine = .ok (ts.map toolLineStr) := by
  induction ts with
  | nil => rfl
  | cons t ts ih =>
    rw [List.map_cons, List.mapM_cons, toolLine_toolJson t (hd t (by simp)),
      ih (fun u hu => hd u (by simp [hu]))]
    rfl

/-- C3: when the rich-tier `getCompanies` call fails, enrichment still
succeeds and the completion call is issued: with a supplied nonempty
well-formed tool-descriptor list the degraded system message listing each
tool's name and description (or the literal 'No description available') is
prepended to the conversation stripped of system messages; with an empty
list, or with no `mcpTools` argument at all, the conversation passes
through with no system message injected. -/
theorem c3_fallback (parse : String → Option Json)
    (messages : List OpenAIMessage) (ts : List MCPTool)
    (hd : ∀ t ∈ ts, t.description ≠ some "") :
    (ts ≠ [] →
      sendMessageWithMCPContext parse messages (mcpToolsJson ts) none
        = .ok ({ role := Role.system,
                 content := toolsPrompt (String.intercalate "\n" (ts.map toolLineStr)) }
               :: dropSystem messages))
    ∧ sendMessageWithMCPContext parse messages (mcpToolsJson []) none = .ok messages
    ∧ sendMessageWithMCPContext parse messages Json.undefined none = .ok messages := by
  refine ⟨?_, rfl, rfl⟩
  intro hne
  have hpos : 0 < ts.length := List.length_pos.mpr hne
  have htools : hasTools (mcpToolsJson ts) = .ok true := by
    unfold hasTools mcpToolsJson
    rw [show jsGet (Json.obj [("tools", Json.arr (ts.map toolJson))]) "tools"
        = Except.ok (Json.arr (ts.map toolJson)) from rfl]
    simp [jsTruthy, jsGet, jsGtZero, Int.ofNat_pos, List.length_map, hpos]
  unfold sendMessageWithMCPContext enrichRich mcpFallback
  dsimp only
  rw [htools]
  dsimp only
  rw [show jsGet (mcpToolsJson ts) "tools"
      = Except.ok (Json.arr (ts.map toolJson)) from rfl]
  dsimp only
  unfold toolsDescriptionOf
  dsimp only
  rw [toolLines_mapM ts hd]

/-- Witness for C3 at a concrete tool list and conversation. -/
theorem c3_witness :
    sendMessageWithMCPContext (fun _ => none)
      [{ role := Role.user, content := "hi" }]
      (mcpToolsJson [{ name := "getCompanies", description := none }]) none
      = .ok [{ role := Role.system,
               content := toolsPrompt "- getCompanies: No description available" },
             { role := Role.user, content := "hi" }] :=
  (c3_fallback (fun _ => none) [{ role := Role.user, content := "hi" }]
      [{ name := "getCompanies", description := none }]
      (by intro t ht; simp at ht; subst ht; simp)).1 (by simp)

theorem renderChats_none (chatsV : Json)
    (h : chatsV = Json.undefined ∨ chatsV = Json.arr []) :
    renderChats chatsV = .ok "None" := by
  rcases h with h | h <;> subst h <;> rfl

theorem renderLLMs_none (llmsV : Json)
    (h : llmsV = Json.undefined ∨ llmsV = Json.arr []) :
    renderLLMs llmsV = .ok "None" := by
  rcases h with h | h <;> subst h <;> rfl

/-- C9: in per-record rendering, a record whose `chats` field is absent
(undefined) or the empty list gets the line "Chatbots: None", and one whose
`llms` field is absent or the empty list gets "LLM Models: None". -/
theorem c9_render (company : Json) (s : String)
    (h : renderCompany company = .ok s) :
    ((jsPropD company "chats" = Json.undefined ∨ jsPropD company "chats" = Json.arr []) →
      ∃ c d l, s = "Company: " ++ c ++ "\nDescription: " ++ d
        ++ "\nChatbots: None\nLLM Models: " ++ l)
    ∧ ((jsPropD company "llms" = Json.undefined ∨ jsPropD company "llms" = Json.arr []) →
      ∃ c d ch, s = "Company: " ++ c ++ "\nDescription: " ++ d
        ++ "\nChatbots: " ++ ch ++ "\nLLM Models: None") := by
  unfold renderCompany at h
  cases hc : jsGet company "chats" with
  | error e => rw [hc] at h; simp at h
  | ok chatsV =>
    rw [hc] at h
    dsimp only at h
    have hcp : jsPropD company "chats" = chatsV := by
      unfold jsPropD; rw [hc]
    cases hrc : renderChats chatsV with
    | error e => rw [hrc] at h; simp at h
    | ok chats =>
      rw [hrc] at h
      dsimp only at h
      cases hlv : jsGet company "llms" with
      | error e => rw [hlv] at h; simp at h
      | ok llmsV =>
        rw [hlv] at h
        dsimp only at h
        have hlp : jsPropD company "llms" = llmsV := by
          unfold jsPropD; rw [hlv]
        cases hrl : renderLLMs llmsV with
        | error e => rw [hrl] at h; simp at h
        | ok llms =>
          rw [hrl] at h
          dsimp only at h
          cases hn : jsGet company "company" with
          | error e => rw [hn] at h; simp at h
          | ok name =>
            rw [hn] at h
            dsimp only at h
            cases hdd : jsGet company "description" with
            | error e => rw [hdd] at h; simp at h
            | ok desc =>
              rw [hdd] at h
              simp only [Except.ok.injEq] at h
              subst h
              constructor
              · intro hyp
                have : renderChats chatsV = .ok "None" :=
                  renderChats_none chatsV (hcp ▸ hyp)
                rw [hrc] at this
                simp only [Except.ok.injEq] at this
                refine ⟨jsStr name, jsStr desc, llms, ?_⟩
                rw [this]
                simp [String.append_assoc]
              · intro hyp
                have : renderLLMs llmsV = .ok "None" :=
                  renderLLMs_none llmsV (hlp ▸ hyp)
                rw [hrl] at this
                simp only [Except.ok.injEq] at this
                refine ⟨jsStr name, jsStr desc, chats, ?_⟩
                rw [this]
                simp [String.append_assoc]

/-- Witness for C9 at a concrete record with both fields absent. -/
theorem c9_witness :
    ∃ c d l, "Company: A\nDescription: dd\nChatbots: None\nLLM Models: None"
      = "Company: " ++ c ++ "\nDescription: " ++ d
        ++ "\nChatbots: None\nLLM Models: " ++ l :=
  (c9_render (.obj [("company", Json.str "A"), ("description", Json.str "dd")])
      "Company: A\nDescription: dd\nChatbots: None\nLLM Models: None" rfl).1
    (Or.inl rfl)

/-- C6: on the rich-tier payload `{content:[{text: c6Text}]}` whose inner
text parses to the one-record Acme array, `createContext` yields exactly
the rendered block "Company: Acme\nDescription: d\nChatbots: c1\nLLM
Models: m1 (s1)". -/
theorem c6_createContext (parse : String → Option Json)
    (hp : parse c6Text = some c6Parsed) :
    createContext parse c6Payload
      = .ok "Company: Acme\nDescription: d\nChatbots: c1\nLLM Models: m1 (s1)" := by
  have h1 : parseTextBlock parse (Json.str c6Text) = .ok [c6Record] := by
    unfold parseTextBlock
    rw [show jsStr (Json.str c6Text) = c6Text from rfl, hp]
    rfl
  have hne : (c6Text == "") = false := by simp [c6Text]
  have h2 : normalizeCompanies parse c6Payload = .ok (Sum.inr [c6Record]) := by
    unfold normalizeCompanies
    simp [c6Payload, jsTruthy, jsGet, h1, hne]
  unfold createContext
  rw [h2]
  rfl

/-- Witness for C6 at the canonical host parse function. -/
theorem c6_witness :
    createContext (fun s => if s = c6Text then some c6Parsed else none) c6Payload
      = .ok "Company: Acme\nDescription: d\nChatbots: c1\nLLM Models: m1 (s1)" :=
  c6_createContext (fun s => if s = c6Text then some c6Parsed else none)
    (by simp)

theorem claimTextRecords_of_parseTextBlock (parse : String → Option Json)
    (text : Json) :
    claimTextRecords parse text
      = (match parseTextBlock parse text with
         | Except.error _ => Sum.inl "Error parsing company data."
         | Except.ok xs => Sum.inr xs) := by
  unfold claimTextRecords parseTextBlock
  cases hp : parse (jsStr text) with
  | none => rfl
  | some v =>
    cases v with
    | undefined => rfl
    | null => rfl
    | arr xs => rfl
    | bool b => cases b <;> rfl
    | num n => simp [jsGet, companiesArrOf, jsPropD, jsTruthy]
    | str t => simp [jsGet, companiesArrOf, jsPropD, jsTruthy]
    | obj fs =>
      cases hl : fs.lookup "companies" with
      | none => simp [jsGet, companiesArrOf, jsPropD, hl, jsTruthy]
      | some c =>
        cases c <;> simp [jsGet, companiesArrOf, jsPropD, hl, jsTruthy, ite_self]

theorem normalizeRest_claim (payload : Json) :
    normalizeRest payload = .ok (claimRestRecords payload) := by
  unfold normalizeRest claimRestRecords
  cases payload with
  | arr xs => rfl
  | undefined => rfl
  | null => rfl
  | bool b => cases b <;> simp [jsTruthy, jsGet, companiesArrOf, jsPropD]
  | num n =>
    by_cases hn : n = 0 <;> simp [jsTruthy, jsGet, companiesArrOf, jsPropD, hn]
  | str t =>
    by_cases ht : t = "" <;> simp [jsTruthy, jsGet, companiesArrOf, jsPropD, ht]
  | obj fs =>
    cases hl : fs.lookup "companies" with
    | none => simp [jsTruthy, jsGet, companiesArrOf, jsPropD, hl]
    | some c =>
      cases c <;> simp [jsTruthy, jsGet, companiesArrOf, jsPropD, hl, ite_self]

theorem normalizeCompanies_claim (parse : String → Option Json) (payload : Json) :
    normalizeCompanies parse payload = .ok (claimRecordsAmendedC4 parse payload) := by
  unfold normalizeCompanies claimRecordsAmendedC4 contentListOf
  cases payload with
  | undefined => simp [jsTruthy, normalizeRest_claim]
  | null => simp [jsTruthy, normalizeRest_claim]
  | bool b => cases b <;> simp [jsTruthy, jsGet, normalizeRest_claim]
  | num n => by_cases hn : n = 0 <;> simp [jsTruthy, jsGet, hn, normalizeRest_claim]
  | str t =>
    by_cases ht : t = "" <;> simp [jsTruthy, ht, jsGet, normalizeRest_claim]
  | arr xs => simp [jsTruthy, jsGet, normalizeRest_claim]
  | obj fs =>
    cases hc : fs.lookup "content" with
    | none => simp [jsTruthy, jsGet, hc, normalizeRest_claim]
    | some c =>
      cases c with
      | undefined => simp [jsTruthy, jsGet, hc, normalizeRest_claim]
      | null => simp [jsTruthy, jsGet, hc, normalizeRest_claim]
      | bool b => cases b <;> simp [jsTruthy, jsGet, hc, normalizeRest_claim]
      | num n => simp [jsTruthy, jsGet, hc, normalizeRest_claim]
      | str t => simp [jsTruthy, jsGet, hc, normalizeRest_claim]
      | obj gs => simp [jsTruthy, jsGet, hc, normalizeRest_claim]
      | arr items =>
        cases items with
        | nil =>
          simp [jsTruthy, jsGet, hc, truthyTextOf, contentFallback]
        | cons first rest =>
          cases first with
          | undefined =>
            simp [jsTruthy, jsGet, hc, truthyTextOf, contentFallback]
          | null =>
            simp [jsTruthy, jsGet, hc, truthyTextOf, contentFallback]
          | bool b =>
            cases b <;>
              simp [jsTruthy, jsGet, hc, truthyTextOf, jsPropD, contentFallback]
          | num n =>
            by_cases hn : n = 0 <;>
              simp [jsTruthy, jsGet, hc, truthyTextOf, jsPropD, hn,
                contentFallback]
          | str t =>
            by_cases ht : t = "" <;>
              simp [jsTruthy, jsGet, hc, truthyTextOf, jsPropD, ht,
                contentFallback]
          | arr ys =>
            simp [jsTruthy, jsGet, hc, truthyTextOf, jsPropD, contentFallback]
          | obj gs =>
            cases hT : gs.lookup "text" with
            | none =>
              simp [jsTruthy, jsGet, hc, hT, truthyTextOf, jsPropD,
                contentFallback]
            | some tv =>
              cases tv with
              | undefined =>
                simp [jsTruthy, jsGet, hc, hT, truthyTextOf, jsPropD,
                  contentFallback]
              | null =>
                simp [jsTruthy, jsGet, hc, hT, truthyTextOf, jsPropD,
                  contentFallback]
              | bool b =>
                cases b with
                | false =>
                  simp [jsTruthy, jsGet, hc, hT, truthyTextOf, jsPropD,
                    contentFallback]
                | true =>
                  cases hptb : parseTextBlock parse (Json.bool true) <;>
                    simp [jsTruthy, jsGet, hc, hT, truthyTextOf, jsPropD,
                      claimTextRecords_of_parseTextBlock, hptb]
              | num n =>
                by_cases hn : n = 0
                · simp [jsTruthy, jsGet, hc, hT, truthyTextOf, jsPropD, hn,
                    contentFallback]
                · cases hptb : parseTextBlock parse (Json.num n) <;>
                    simp [jsTruthy, jsGet, hc, hT, truthyTextOf, jsPropD, hn,
                      claimTextRecords_of_parseTextBlock, hptb]
              | str t =>
                by_cases ht : t = ""
                · simp [jsTruthy, jsGet, hc, hT, truthyTextOf, jsPropD, ht,
                    contentFallback]
                · cases hptb : parseTextBlock parse (Json.str t) <;>
                    simp [jsTruthy, jsGet, hc, hT, truthyTextOf, jsPropD, ht,
                      claimTextRecords_of_parseTextBlock, hptb]
              | arr ys =>
                cases hptb : parseTextBlock parse (Json.arr ys) <;>
                  simp [jsTruthy, jsGet, hc, hT, truthyTextOf, jsPropD,
                    claimTextRecords_of_parseTextBlock, hptb]
              | obj hs =>
                cases hptb : parseTextBlock parse (Json.obj hs) <;>
                  simp [jsTruthy, jsGet, hc, hT, truthyTextOf, jsPropD,
                    claimTextRecords_of_parseTextBlock, hptb]

/-- C4 counterexample: on the payload `{content:[{company:"X",
description:"d"}]}` — a `content` list whose first element carries no
`text` field — the code uses the first content element as the record,
while the claimed ordered shape rule falls through to wrapping the whole
payload, rendering "Company: undefined"; the two disagree, refuting the
claim as stated. -/
theorem c4_counterexample :
    createContext (fun _ => none)
      (.obj [("content",
        .arr [.obj [("company", Json.str "X"), ("description", Json.str "d")]])])
      = .ok "Company: X\nDescription: d\nChatbots: None\nLLM Models: None"
    ∧ createContextClaimC4 (fun _ => none)
      (.obj [("content",
        .arr [.obj [("company", Json.str "X"), ("description", Json.str "d")]])])
      = .ok "Company: undefined\nDescription: undefined\nChatbots: None\nLLM Models: None"
    ∧ createContext (fun _ => none)
      (.obj [("content",
        .arr [.obj [("company", Json.str "X"), ("description", Json.str "d")]])])
      ≠ createContextClaimC4 (fun _ => none)
      (.obj [("content",
        .arr [.obj [("company", Json.str "X"), ("description", Json.str "d")]])]) := by
  refine ⟨rfl, rfl, ?_⟩
  intro h
  have h3 : (Except.ok "Company: X\nDescription: d\nChatbots: None\nLLM Models: None"
      : Except Unit String)
      = Except.ok "Company: undefined\nDescription: undefined\nChatbots: None\nLLM Models: None" :=
    h
  exact absurd (Except.ok.inj h3) (by decide)

/-- C4 (amended): `createContext` coincides, on every parse function and
every payload, with the amended ordered shape rule — the claim's rule
extended with the `content` branch's non-text subcases (a non-text first
content element is used directly when a list and wrapped otherwise, with
the text step requiring a truthy first element and truthy text) and with a
parsed nullish value treated as a parse failure. -/
theorem c4_amended (parse : String → Option Json) (payload : Json) :
    createContext parse payload = createContextAmendedC4 parse payload := by
  unfold createContext createContextAmendedC4
  rw [normalizeCompanies_claim]
  cases claimRecordsAmendedC4 parse payload <;> rfl
